import Mathlib

/-!
Verification of the cicd-agent deployment agent: a shallow embedding of the
blue/green rollout pipeline, the version ledger and path resolver, the
readiness probe, the registry existence check, the notification estimator
and the crypto envelope, with theorems settling the specification claims.

Strings from the Go source are modelled as lists of characters
(`GoStr := List Char`); `strings.Contains s sub` is `sub <:+: s`.
-/

/-- Go strings, modelled as character lists. -/
abbrev GoStr := List Char

/-- Shorthand to turn a Lean string literal into a `GoStr`. -/
def gs (s : String) : GoStr := s.data

/-- `strings.Contains s sub` from the Go standard library: substring test. -/
def goContains (s sub : GoStr) : Bool := decide (sub <:+: s)

-- sanity checks on the embedding of strings.Contains
example : goContains (gs "abc-v1-d") (gs "-v1") = true := by decide

example : goContains (gs "abc") (gs "-v1") = false := by decide

theorem goContains_eq_true_iff {s sub : GoStr} : goContains s sub = true ↔ sub <:+: s := by
  simp [goContains]

/-- An infix of `a` is an infix of `a ++ b`. -/
theorem isInfix_append_left {s a : GoStr} (b : GoStr) (h : s <:+: a) : s <:+: a ++ b := by
  obtain ⟨t, u, rfl⟩ := h
  exact ⟨t, u ++ b, by simp⟩

/-- An infix of `b` is an infix of `a ++ b`. -/
theorem isInfix_append_right {s b : GoStr} (a : GoStr) (h : s <:+: b) : s <:+: a ++ b := by
  obtain ⟨t, u, rfl⟩ := h
  exact ⟨a ++ t, u, by simp⟩

/-- An infix of an append either lies inside one of the parts or splits across
the boundary into a nonempty suffix of `a` followed by a nonempty prefix
of `b`. -/
theorem isInfix_append_cases {s a b : GoStr} (h : s <:+: a ++ b) :
    s <:+: a ∨ s <:+: b ∨
      ∃ s₁ s₂, s = s₁ ++ s₂ ∧ s₁ ≠ [] ∧ s₂ ≠ [] ∧ s₁ <:+ a ∧ s₂ <+: b := by
  obtain ⟨t, u, hh⟩ := h
  rw [List.append_assoc, List.append_eq_append_iff] at hh
  rcases hh with ⟨w, hw₁, hw₂⟩ | ⟨w, hw₁, hw₂⟩
  · rw [List.append_eq_append_iff] at hw₂
    rcases hw₂ with ⟨x, hx₁, hx₂⟩ | ⟨x, hx₁, hx₂⟩
    · exact Or.inl ⟨t, x, by rw [hw₁, hx₁, List.append_assoc]⟩
    · rcases eq_or_ne w [] with rfl | hwne
      · exact Or.inr (Or.inl ⟨[], u, by simp at hx₁; rw [hx₁, hx₂]; simp⟩)
      · rcases eq_or_ne x [] with rfl | hxne
        · exact Or.inl ⟨t, [], by simp at hx₁ ⊢; rw [hx₁, hw₁]⟩
        · exact Or.inr (Or.inr ⟨w, x, hx₁, hwne, hxne, ⟨t, hw₁.symm⟩, ⟨u, hx₂.symm⟩⟩)
  · exact Or.inr (Or.inl ⟨w, u, by rw [hw₂, List.append_assoc]⟩)

/-- Splitting the concrete pattern `-v1` into two nonempty parts leaves as
second part either `v1` or `1`. -/
theorem dashV1_split_cases {s₁ s₂ : GoStr} (h : gs "-v1" = s₁ ++ s₂)
    (h₁ : s₁ ≠ []) (h₂ : s₂ ≠ []) : s₂ = gs "v1" ∨ s₂ = gs "1" := by
  have hg : gs "-v1" = '-' :: 'v' :: '1' :: [] := by decide
  have hv : gs "v1" = 'v' :: '1' :: [] := by decide
  have h1 : gs "1" = '1' :: [] := by decide
  rw [hg] at h
  rcases s₁ with _ | ⟨c₁, s₁⟩
  · exact absurd rfl h₁
  rcases s₁ with _ | ⟨c₂, s₁⟩
  · rw [List.cons_append, List.nil_append] at h
    obtain ⟨-, h⟩ := List.cons.inj h
    exact Or.inl (by rw [hv, ← h])
  rcases s₁ with _ | ⟨c₃, s₁⟩
  · rw [List.cons_append, List.cons_append, List.nil_append] at h
    obtain ⟨-, h⟩ := List.cons.inj h
    obtain ⟨-, h⟩ := List.cons.inj h
    exact Or.inr (by rw [h1, ← h])
  exfalso
  rcases s₂ with _ | ⟨d, s₂⟩
  · exact absurd rfl h₂
  have hlen := congrArg List.length h
  simp [List.length_append] at hlen

/-- If neither the project part `p` nor the constant tail `b` contributes an
occurrence of `-v1` (including across the boundary), the concatenation has
none. -/
theorem not_dashV1_infix_append {p b : GoStr} (hp : ¬ gs "-v1" <:+: p)
    (hb : ¬ gs "-v1" <:+: b) (hb₁ : ¬ gs "v1" <+: b) (hb₂ : ¬ gs "1" <+: b) :
    ¬ gs "-v1" <:+: p ++ b := by
  intro h
  rcases isInfix_append_cases h with h | h | ⟨s₁, s₂, hs, hne₁, hne₂, _, hpre⟩
  · exact hp h
  · exact hb h
  · rcases dashV1_split_cases hs hne₁ hne₂ with rfl | rfl
    · exact hb₁ hpre
    · exact hb₂ hpre

/-! ## Version Ledger (`common/version.go`) and path/namespace resolver -/

/-- The `.current` version-ledger file of a project: `none` when the file does
not exist, `some v` when it records `current_version = v`.  (`last_updated`
and `step_durations` are irrelevant to the colour claims and omitted.) -/
abbrev LedgerFile := Option GoStr

/-- `common.GetCurrentVersion`: reads the ledger file, creating the default
record with `current_version = "v1"` when the file is absent.  Returns the
`current_version` read together with the file state after the call. -/
def GetCurrentVersion (file : LedgerFile) : GoStr × LedgerFile :=
  match file with
  | none => (gs "v1", some (gs "v1"))
  | some v => (v, some v)

/-- `common.GetVersion`: the `current_version` field obtained from
`GetCurrentVersion`. -/
def GetVersion (file : LedgerFile) : GoStr := (GetCurrentVersion file).1

/-- `common.UpdateVersion`: reads the ledger (materialising the default if
missing) and writes `newVersion` into `current_version`. -/
def UpdateVersion (file : LedgerFile) (newVersion : GoStr) : LedgerFile :=
  some newVersion

/-- The next-colour computation inside `common.GetDeploymentPath`:
`v1 ↦ v2`, `v2 ↦ v1`, any other recorded value `↦ v1`. -/
def nextVersionOf (version : GoStr) : GoStr :=
  if version = gs "v1" then gs "v2"
  else if version = gs "v2" then gs "v1"
  else gs "v1"

/-- `common.GetDeploymentPath`: the deployment directory the pipeline deploys
into.  Non-blue/green projects use `<base>/deployment`; blue/green projects
use the directory of the colour opposite to the ledger's current version.
(`filepath.Join` is modelled as `/`-concatenation, exact for clean paths.) -/
def GetDeploymentPath (isDouble : Bool) (baseDir : GoStr) (file : LedgerFile) : GoStr :=
  if !isDouble then baseDir ++ gs "/deployment"
  else baseDir ++ gs "/deployment-" ++ nextVersionOf (GetVersion file)

/-- `javaBuild.getNamespace` with `mode = "now"`: the namespace currently
receiving traffic, `<project>-service` for single projects and
`<project>-service-<current_version>` for blue/green projects. -/
def getNamespaceNow (isDouble : Bool) (project : GoStr) (file : LedgerFile) : GoStr :=
  if !isDouble then project ++ gs "-service"
  else project ++ gs "-service-" ++ GetVersion file

/-- `javaBuild.getNamespace` with `mode = "next"`: the blue/green switch logic
searches the **whole current namespace string** for the substrings `-v1` and
`-v2` to decide the opposite colour, defaulting to `v1`. -/
def getNamespaceNext (isDouble : Bool) (project : GoStr) (file : LedgerFile) : GoStr :=
  if !isDouble then project ++ gs "-service"
  else
    let nowNamespace := getNamespaceNow true project file
    if goContains nowNamespace (gs "-v1") then project ++ gs "-service-v2"
    else if goContains nowNamespace (gs "-v2") then project ++ gs "-service-v1"
    else project ++ gs "-service-v1"

/-- The version extraction in `DoubleVersionProcessor.step15TrafficSwitching`:
substring search for `-v1` then `-v2` over the target namespace, defaulting
to `v1`. -/
def step15ExtractVersion (ns : GoStr) : GoStr :=
  if goContains ns (gs "-v1") then gs "v1"
  else if goContains ns (gs "-v2") then gs "v2"
  else gs "v1"

theorem gs_service_v1 : gs "-service-" ++ gs "v1" = gs "-service-v1" := by decide

theorem gs_service_v2 : gs "-service-" ++ gs "v2" = gs "-service-v2" := by decide

/-- `-v1` occurs in `<p>-service-v1`. -/
theorem dashV1_infix_serviceV1 (p : GoStr) : gs "-v1" <:+: p ++ gs "-service-v1" :=
  isInfix_append_right p (by decide)

/-- If the project name has no occurrence of `-v1`, neither has
`<p>-service-v2`. -/
theorem dashV1_not_infix_serviceV2 {p : GoStr} (hp : ¬ gs "-v1" <:+: p) :
    ¬ gs "-v1" <:+: p ++ gs "-service-v2" :=
  not_dashV1_infix_append hp (by decide) (by decide) (by decide)

/-- `-v2` occurs in `<p>-service-v2`. -/
theorem dashV2_infix_serviceV2 (p : GoStr) : gs "-v2" <:+: p ++ gs "-service-v2" :=
  isInfix_append_right p (by decide)

/-- For a blue/green project with a clean name (no `-v1` substring) and a
well-formed ledger, the `next` namespace is the opposite colour's namespace. -/
theorem getNamespaceNext_clean {p : GoStr} (file : LedgerFile)
    (hp : goContains p (gs "-v1") = false)
    (hC : GetVersion file = gs "v1" ∨ GetVersion file = gs "v2") :
    getNamespaceNext true p file =
      p ++ gs "-service-" ++ nextVersionOf (GetVersion file) := by
  have hp' : ¬ gs "-v1" <:+: p := by
    intro h; rw [← goContains_eq_true_iff] at h; rw [hp] at h; exact Bool.false_ne_true h
  rcases hC with hC | hC
  · have h1 : goContains (getNamespaceNow true p file) (gs "-v1") = true := by
      rw [goContains_eq_true_iff]
      simp only [getNamespaceNow, Bool.not_true, Bool.false_eq_true, if_false, hC]
      rw [List.append_assoc, gs_service_v1]
      exact dashV1_infix_serviceV1 p
    simp [getNamespaceNext, h1, hC, nextVersionOf, List.append_assoc, gs_service_v2]
  · have h1 : goContains (getNamespaceNow true p file) (gs "-v1") = false := by
      rw [Bool.eq_false_iff]
      intro h
      rw [goContains_eq_true_iff] at h
      simp only [getNamespaceNow, Bool.not_true, Bool.false_eq_true, if_false, hC] at h
      rw [List.append_assoc, gs_service_v2] at h
      exact dashV1_not_infix_serviceV2 hp' h
    have h2 : goContains (getNamespaceNow true p file) (gs "-v2") = true := by
      rw [goContains_eq_true_iff]
      simp only [getNamespaceNow, Bool.not_true, Bool.false_eq_true, if_false, hC]
      rw [List.append_assoc, gs_service_v2]
      exact dashV2_infix_serviceV2 p
    have hv : (gs "v2" = gs "v1") = False := by simp [gs]
    simp [getNamespaceNext, h1, h2, hC, nextVersionOf, hv, List.append_assoc, gs_service_v1]

/-- For a clean project name and well-formed ledger, step 15 extracts exactly
the next colour from the `next` namespace. -/
theorem step15ExtractVersion_clean {p : GoStr} (file : LedgerFile)
    (hp : goContains p (gs "-v1") = false)
    (hC : GetVersion file = gs "v1" ∨ GetVersion file = gs "v2") :
    step15ExtractVersion (getNamespaceNext true p file) =
      nextVersionOf (GetVersion file) := by
  have hp' : ¬ gs "-v1" <:+: p := by
    intro h; rw [← goContains_eq_true_iff] at h; rw [hp] at h; exact Bool.false_ne_true h
  rw [getNamespaceNext_clean file hp hC]
  rcases hC with hC | hC
  · rw [hC]
    have hnv : nextVersionOf (gs "v1") = gs "v2" := by decide
    rw [hnv, List.append_assoc, gs_service_v2]
    have h1 : goContains (p ++ gs "-service-v2") (gs "-v1") = false := by
      rw [Bool.eq_false_iff]
      intro h
      rw [goContains_eq_true_iff] at h
      exact dashV1_not_infix_serviceV2 hp' h
    have h2 : goContains (p ++ gs "-service-v2") (gs "-v2") = true := by
      rw [goContains_eq_true_iff]
      exact dashV2_infix_serviceV2 p
    simp [step15ExtractVersion, h1, h2]
  · rw [hC]
    have hnv : nextVersionOf (gs "v2") = gs "v1" := by decide
    rw [hnv, List.append_assoc, gs_service_v1]
    have h1 : goContains (p ++ gs "-service-v1") (gs "-v1") = true := by
      rw [goContains_eq_true_iff]
      exact dashV1_infix_serviceV1 p
    simp [step15ExtractVersion, h1]

/-! ## Claim C2: resolver path for mode=next -/

/-- C2 counterexample: for a blue/green project with no `.current` file, the
resolver does **not** return the `v1` path — the default record `v1` is
materialised and the next path points to `v2`. -/
theorem c2_counterexample :
    GetDeploymentPath true (gs "/data/p") none ≠ gs "/data/p" ++ gs "/deployment-v1" ∧
    GetDeploymentPath true (gs "/data/p") none = gs "/data/p" ++ gs "/deployment-v2" := by
  constructor
  · decide
  · decide

/-- C2 (amended): for a blue/green project the resolver's `next` path is the
opposite colour of the recorded one; a missing `.current` file is materialised
as `v1`, so the path then points to `v2`; an unrecognised recorded colour
yields the `v1` path. -/
theorem c2_theorem (baseDir : GoStr) (file : LedgerFile) :
    (GetVersion file = gs "v1" →
      GetDeploymentPath true baseDir file = baseDir ++ gs "/deployment-" ++ gs "v2") ∧
    (GetVersion file = gs "v2" →
      GetDeploymentPath true baseDir file = baseDir ++ gs "/deployment-" ++ gs "v1") ∧
    (file = none →
      GetDeploymentPath true baseDir file = baseDir ++ gs "/deployment-" ++ gs "v2") ∧
    (∀ v, file = some v → v ≠ gs "v1" → v ≠ gs "v2" →
      GetDeploymentPath true baseDir file = baseDir ++ gs "/deployment-" ++ gs "v1") := by
  refine ⟨fun h => ?_, fun h => ?_, fun h => ?_, fun v hv h1 h2 => ?_⟩
  · simp [GetDeploymentPath, h, nextVersionOf]
  · have hv : (gs "v2" = gs "v1") = False := by simp [gs]
    simp [GetDeploymentPath, h, nextVersionOf, hv]
  · subst h
    simp [GetDeploymentPath, GetVersion, GetCurrentVersion, nextVersionOf]
  · subst hv
    have hg : GetVersion (some v) = v := rfl
    simp [GetDeploymentPath, hg, nextVersionOf, h1, h2]

/-- C2 witness: the amended resolver theorem evaluated at a concrete ledger
recording live colour `v1`. -/
theorem c2_witness :
    GetVersion (some (gs "v1")) = gs "v1" ∧
    GetDeploymentPath true (gs "/d") (some (gs "v1")) =
      gs "/d" ++ gs "/deployment-" ++ gs "v2" :=
  ⟨by decide, (c2_theorem (gs "/d") (some (gs "v1"))).1 (by decide)⟩

/-! ## Claim C9: namespace derivation for projects whose name contains -v1 -/

/-- C9: for a blue/green project whose name itself contains `-v1`, the
`next`-namespace derivation returns the `v2` namespace regardless of the
recorded live colour, and when the live colour is `v2` the "next" namespace
coincides with the live one. -/
theorem c9_theorem (project : GoStr) (file : LedgerFile)
    (h : goContains project (gs "-v1") = true) :
    getNamespaceNext true project file = project ++ gs "-service-v2" ∧
    (GetVersion file = gs "v2" →
      getNamespaceNext true project file = getNamespaceNow true project file) := by
  have hnow : goContains (getNamespaceNow true project file) (gs "-v1") = true := by
    rw [goContains_eq_true_iff]
    rw [goContains_eq_true_iff] at h
    simp only [getNamespaceNow, Bool.not_true, Bool.false_eq_true, if_false]
    exact isInfix_append_left _ (isInfix_append_left _ h)
  constructor
  · simp [getNamespaceNext, hnow]
  · intro hv
    have e1 : getNamespaceNext true project file = project ++ gs "-service-v2" := by
      simp [getNamespaceNext, hnow]
    rw [e1]
    simp only [getNamespaceNow, Bool.not_true, Bool.false_eq_true, if_false, hv]
    rw [List.append_assoc, gs_service_v2]

/-- C9 witness: the claim evaluated at project `foo-v1` with live colour `v2`:
the derived next namespace equals the live namespace `foo-v1-service-v2`. -/
theorem c9_witness :
    goContains (gs "foo-v1") (gs "-v1") = true ∧
    getNamespaceNext true (gs "foo-v1") (some (gs "v2")) = gs "foo-v1" ++ gs "-service-v2" ∧
    getNamespaceNext true (gs "foo-v1") (some (gs "v2")) =
      getNamespaceNow true (gs "foo-v1") (some (gs "v2")) := by
  refine ⟨by decide, ?_, ?_⟩
  · exact (c9_theorem (gs "foo-v1") (some (gs "v2")) (by decide)).1
  · exact (c9_theorem (gs "foo-v1") (some (gs "v2")) (by decide)).2 (by decide)

/-! ## Claim C1: double rollout, ledger update and ordering -/

/-- Success/failure of each external executor invoked by the double-version
pipeline (steps 9-16 of `DoubleVersionProcessor`). -/
structure StepOutcomes where
  pullOk : Bool
  tagOk : Bool
  pushOk : Bool
  checkOk : Bool
  deployOk : Bool
  readyOk : Bool
  switchOk : Bool
  cleanupOk : Bool

/-- Ledger-relevant events of a double-version rollout, in execution order. -/
inductive RolloutEvent
  | stepFailed (step : Nat)
  | manifestsApplied (dir : GoStr)
  | trafficSwitchSuccess
  | ledgerUpdated (version : GoStr)
  | reclaimerStarted
  | taskComplete
deriving DecidableEq

/-- `DoubleVersionProcessor.ProcessDoubleVersionDeployment` for a blue/green
project, reduced to its ledger-relevant actions: steps 9-16 run in order and
each failure aborts the pipeline; step 13 applies the manifests of the
directory resolved by `common.GetDeploymentPath`; step 15 switches traffic
and, on success, updates the ledger with the version extracted from the
`next` namespace; step 16 then runs the reclaimer.  Steps that only read the
ledger never change its `current_version` value, so reads are modelled as
no-ops on the file.  Returns the event trace and the final ledger file. -/
def ProcessDoubleVersionDeployment (project baseDir : GoStr) (file : LedgerFile)
    (oc : StepOutcomes) : List RolloutEvent × LedgerFile :=
  if !oc.pullOk then ([.stepFailed 9], file)
  else if !oc.tagOk then ([.stepFailed 10], file)
  else if !oc.pushOk then ([.stepFailed 11], file)
  else if !oc.checkOk then ([.stepFailed 12], file)
  else if !oc.deployOk then ([.stepFailed 13], file)
  else
    let deployDir := GetDeploymentPath true baseDir file
    if !oc.readyOk then ([.manifestsApplied deployDir, .stepFailed 14], file)
    else
      let ns := getNamespaceNext true project file
      let version := step15ExtractVersion ns
      if !oc.switchOk then ([.manifestsApplied deployDir, .stepFailed 15], file)
      else
        let file' := UpdateVersion file version
        if !oc.cleanupOk then
          ([.manifestsApplied deployDir, .trafficSwitchSuccess, .ledgerUpdated version,
            .reclaimerStarted, .stepFailed 16], file')
        else
          ([.manifestsApplied deployDir, .trafficSwitchSuccess, .ledgerUpdated version,
            .reclaimerStarted, .taskComplete], file')

/-- The all-successful outcome vector. -/
def allStepsOk : StepOutcomes := ⟨true, true, true, true, true, true, true, true⟩

/-- C1 counterexample: for the project named `foo-v1` with live colour `v1`, a
fully successful double rollout applies the `v2` manifests
(`/data/foo-v1/deployment-v2`) but records `current_version = v1`: the ledger
does **not** equal the colour whose manifests were just applied. -/
theorem c1_counterexample :
    (ProcessDoubleVersionDeployment (gs "foo-v1") (gs "/data/foo-v1")
        (some (gs "v1")) allStepsOk).1.contains
      (.manifestsApplied (gs "/data/foo-v1" ++ gs "/deployment-" ++ gs "v2")) = true ∧
    (ProcessDoubleVersionDeployment (gs "foo-v1") (gs "/data/foo-v1")
        (some (gs "v1")) allStepsOk).1.contains .taskComplete = true ∧
    GetVersion (ProcessDoubleVersionDeployment (gs "foo-v1") (gs "/data/foo-v1")
        (some (gs "v1")) allStepsOk).2 ≠ gs "v2" := by
  refine ⟨by decide, by decide, by decide⟩

/-- C1 (amended): for a blue/green project whose name does not contain `-v1`
and whose ledger records a well-formed colour, (a) a rollout in which steps 9
through 15 all succeed records in the ledger exactly the colour whose
manifest directory was applied, and the ledger update is traced strictly
after the traffic switcher's success and strictly before the reclaimer's
first action; (b) if any step up to and including the traffic switch fails,
`current_version` is unchanged and no ledger update is traced. -/
theorem c1_theorem (project baseDir : GoStr) (file : LedgerFile) (oc : StepOutcomes)
    (hp : goContains project (gs "-v1") = false)
    (hC : GetVersion file = gs "v1" ∨ GetVersion file = gs "v2") :
    (oc.pullOk = true → oc.tagOk = true → oc.pushOk = true → oc.checkOk = true →
      oc.deployOk = true → oc.readyOk = true → oc.switchOk = true →
      GetVersion (ProcessDoubleVersionDeployment project baseDir file oc).2 =
        nextVersionOf (GetVersion file) ∧
      RolloutEvent.manifestsApplied (baseDir ++ gs "/deployment-" ++
          GetVersion (ProcessDoubleVersionDeployment project baseDir file oc).2) ∈
        (ProcessDoubleVersionDeployment project baseDir file oc).1 ∧
      ∃ i j k, i < j ∧ j < k ∧
        (ProcessDoubleVersionDeployment project baseDir file oc).1.get? i =
          some .trafficSwitchSuccess ∧
        (ProcessDoubleVersionDeployment project baseDir file oc).1.get? j =
          some (.ledgerUpdated (GetVersion
            (ProcessDoubleVersionDeployment project baseDir file oc).2)) ∧
        (ProcessDoubleVersionDeployment project baseDir file oc).1.get? k =
          some .reclaimerStarted) ∧
    ((oc.pullOk = false ∨ oc.tagOk = false ∨ oc.pushOk = false ∨ oc.checkOk = false ∨
      oc.deployOk = false ∨ oc.readyOk = false ∨ oc.switchOk = false) →
      GetVersion (ProcessDoubleVersionDeployment project baseDir file oc).2 =
        GetVersion file ∧
      ∀ v, RolloutEvent.ledgerUpdated v ∉
        (ProcessDoubleVersionDeployment project baseDir file oc).1) := by
  obtain ⟨p9, p10, p11, p12, p13, p14, p15, p16⟩ := oc
  have hver : step15ExtractVersion (getNamespaceNext true project file) =
      nextVersionOf (GetVersion file) := step15ExtractVersion_clean file hp hC
  constructor
  · intro h9 h10 h11 h12 h13 h14 h15
    subst h9 h10 h11 h12 h13 h14 h15
    have hups : GetVersion (UpdateVersion file
        (step15ExtractVersion (getNamespaceNext true project file))) =
        nextVersionOf (GetVersion file) := by
      simp [UpdateVersion, GetVersion, GetCurrentVersion, hver]
    cases p16 <;>
      simp only [ProcessDoubleVersionDeployment, Bool.not_true, Bool.not_false,
        Bool.false_eq_true, if_false, if_true, ite_true, ite_false] <;>
      refine ⟨hups, ?_, 1, 2, 3, by omega, by omega, rfl, by rw [hups, hver]; rfl, rfl⟩ <;>
      · rw [hups]
        simp [GetDeploymentPath, List.mem_cons]
  · intro hfail
    cases p9 <;> cases p10 <;> cases p11 <;> cases p12 <;> cases p13 <;>
      cases p14 <;> cases p15 <;>
      simp_all [ProcessDoubleVersionDeployment]

/-- C1 witness: the amended theorem applied to the clean project `shop` with
live colour `v1` and all steps succeeding: the ledger ends at `v2`, the colour
whose manifests were applied. -/
theorem c1_witness :
    GetVersion (ProcessDoubleVersionDeployment (gs "shop") (gs "/d")
      (some (gs "v1")) allStepsOk).2 = nextVersionOf (GetVersion (some (gs "v1"))) :=
  ((c1_theorem (gs "shop") (gs "/d") (some (gs "v1")) allStepsOk (by decide)
    (Or.inl (by decide))).1 rfl rfl rfl rfl rfl rfl rfl).1

/-! ## Claim C3: readiness probe, Phase A (`ServiceChecker.waitForAllPodsRunning`) -/

/-- A pod observation: name and phase. -/
abbrev PodObs := GoStr × GoStr

/-- One poll of the namespace: every pod with its phase
(`getAllPodsWithStatus`). -/
abbrev Poll := List PodObs

/-- `ServiceChecker.isPodNormalState`: only `Pending`, `ContainerCreating` and
`Running` count as normal. -/
def isPodNormalState (status : GoStr) : Bool :=
  [gs "Pending", gs "ContainerCreating", gs "Running"].any
    (fun normalState => decide (status = normalState))

/-- The controllers of the target namespace: Deployments, StatefulSets, and
ReplicaSets with the kind of their first owner reference. -/
structure Inventory where
  deployments : List GoStr
  statefulSets : List GoStr
  replicaSets : List (GoStr × GoStr)
deriving DecidableEq

/-- The controllers scaled to zero replicas. -/
structure ScaleTargets where
  deployments : List GoStr
  statefulSets : List GoStr
  replicaSets : List GoStr
deriving DecidableEq

/-- `ServiceChecker.scaleDownFailedControllers` + `getAllControllers`: scales
to zero every Deployment, every StatefulSet, and every ReplicaSet whose owner
is not a Deployment (with a nonempty name). -/
def scaleDownFailedControllers (inv : Inventory) : ScaleTargets :=
  { deployments := inv.deployments
    statefulSets := inv.statefulSets
    replicaSets := (inv.replicaSets.filter
      (fun r => decide (r.2 ≠ gs "Deployment" ∧ r.1 ≠ []))).map (fun r => r.1) }

/-- Result of Phase A, with the scale-down performed on failure. -/
inductive PhaseAResult
  | success
  | abnormalFailed (scaled : ScaleTargets)
  | timedOut (scaled : ScaleTargets)
deriving DecidableEq

/-- The per-poll success test: every pod `Running` and at least one pod
(`runningPods == totalPods && totalPods > 0`). -/
def allRunningPoll (poll : Poll) : Bool :=
  decide (poll ≠ []) && poll.all (fun pd => decide (pd.2 = gs "Running"))

/-- `ServiceChecker.waitForAllPodsRunning`, driven by the finite sequence of
polls the loop would observe (list exhaustion models the 3-minute deadline,
which also scales the namespace down): any abnormal pod fails immediately
after scaling all controllers down; success requires two consecutive
all-`Running` polls. -/
def waitForAllPodsRunning (inv : Inventory) :
    List Poll → Nat → PhaseAResult
  | [], _ => .timedOut (scaleDownFailedControllers inv)
  | poll :: rest, consecutiveSuccess =>
    if poll.any (fun pd => !isPodNormalState pd.2) then
      .abnormalFailed (scaleDownFailedControllers inv)
    else if allRunningPoll poll then
      if consecutiveSuccess + 1 ≥ 2 then .success
      else waitForAllPodsRunning inv rest (consecutiveSuccess + 1)
    else waitForAllPodsRunning inv rest 0

theorem waitForAllPodsRunning_success_aux (inv : Inventory) (polls : List Poll) :
    ∀ k, waitForAllPodsRunning inv polls k = .success →
      (∃ i p q, polls.get? i = some p ∧ polls.get? (i + 1) = some q ∧
        allRunningPoll p = true ∧ allRunningPoll q = true) ∨
      (1 ≤ k ∧ ∃ p rest, polls = p :: rest ∧ allRunningPoll p = true) := by
  induction polls with
  | nil => intro k h; simp [waitForAllPodsRunning] at h
  | cons poll rest ih =>
    intro k h
    rw [waitForAllPodsRunning] at h
    by_cases h1 : poll.any (fun pd => !isPodNormalState pd.2) = true
    · rw [if_pos h1] at h; cases h
    · rw [if_neg h1] at h
      by_cases h2 : allRunningPoll poll = true
      · rw [if_pos h2] at h
        by_cases h3 : k + 1 ≥ 2
        · exact Or.inr ⟨by omega, poll, rest, rfl, h2⟩
        · rw [if_neg h3] at h
          rcases ih (k + 1) h with ⟨i, p, q, hp, hq, hrp, hrq⟩ | ⟨-, q, rest', hre, hrq⟩
          · exact Or.inl ⟨i + 1, p, q, by simpa using hp, by simpa using hq, hrp, hrq⟩
          · exact Or.inl ⟨0, poll, q, rfl, by simp [hre], h2, hrq⟩
      · rw [if_neg h2] at h
        rcases ih 0 h with ⟨i, p, q, hp, hq, hrp, hrq⟩ | ⟨hk, -⟩
        · exact Or.inl ⟨i + 1, p, q, by simpa using hp, by simpa using hq, hrp, hrq⟩
        · omega

/-- C3: in Phase A, (a) an observed pod phase outside
{Pending, ContainerCreating, Running} fails the step on that very poll with a
scale-to-zero covering every Deployment, every standalone ReplicaSet (owner
not `Deployment`) and every StatefulSet of the namespace; (b) Phase A returns
success only when two consecutive polls saw every pod `Running`. -/
theorem c3_theorem :
    (∀ (inv : Inventory) (poll : Poll) (rest : List Poll) (k : Nat),
      (∃ pd ∈ poll, isPodNormalState pd.2 = false) →
      waitForAllPodsRunning inv (poll :: rest) k =
        .abnormalFailed (scaleDownFailedControllers inv) ∧
      (∀ d ∈ inv.deployments, d ∈ (scaleDownFailedControllers inv).deployments) ∧
      (∀ s ∈ inv.statefulSets, s ∈ (scaleDownFailedControllers inv).statefulSets) ∧
      (∀ r ∈ inv.replicaSets, r.2 ≠ gs "Deployment" → r.1 ≠ [] →
        r.1 ∈ (scaleDownFailedControllers inv).replicaSets)) ∧
    (∀ (inv : Inventory) (polls : List Poll),
      waitForAllPodsRunning inv polls 0 = .success →
      ∃ i p q, polls.get? i = some p ∧ polls.get? (i + 1) = some q ∧
        allRunningPoll p = true ∧ allRunningPoll q = true) := by
  constructor
  · intro inv poll rest k hab
    obtain ⟨pd, hmem, hfalse⟩ := hab
    have hany : poll.any (fun pd => !isPodNormalState pd.2) = true :=
      List.any_eq_true.mpr ⟨pd, hmem, by simp [hfalse]⟩
    refine ⟨by rw [waitForAllPodsRunning, if_pos hany], fun d hd => hd, fun s hs => hs,
      fun r hr hown hname => ?_⟩
    exact List.mem_map.mpr ⟨r, List.mem_filter.mpr ⟨hr, decide_eq_true ⟨hown, hname⟩⟩, rfl⟩
  · intro inv polls h
    rcases waitForAllPodsRunning_success_aux inv polls 0 h with hc | ⟨hk, -⟩
    · exact hc
    · omega

/-- C3 witness: a `CrashLoopBackOff` pod fails Phase A at once and scales the
namespace's controllers down; two consecutive all-`Running` polls exist
whenever Phase A succeeds, e.g. on two singleton `Running` polls. -/
theorem c3_witness :
    (waitForAllPodsRunning ⟨[gs "api"], [gs "db"], [(gs "rs1", gs "Deployment"), (gs "rs2", gs "Custom")]⟩
      ([(gs "pod-a", gs "CrashLoopBackOff")] :: []) 0 =
      .abnormalFailed (scaleDownFailedControllers
        ⟨[gs "api"], [gs "db"], [(gs "rs1", gs "Deployment"), (gs "rs2", gs "Custom")]⟩) ∧
      gs "rs2" ∈ (scaleDownFailedControllers
        ⟨[gs "api"], [gs "db"], [(gs "rs1", gs "Deployment"), (gs "rs2", gs "Custom")]⟩).replicaSets) ∧
    (∃ i p q,
      ([[(gs "pod-a", gs "Running")], [(gs "pod-a", gs "Running")]] : List Poll).get? i = some p ∧
      ([[(gs "pod-a", gs "Running")], [(gs "pod-a", gs "Running")]] : List Poll).get? (i + 1) = some q ∧
      allRunningPoll p = true ∧ allRunningPoll q = true) := by
  constructor
  · refine ⟨(c3_theorem.1 ⟨[gs "api"], [gs "db"], [(gs "rs1", gs "Deployment"), (gs "rs2", gs "Custom")]⟩
      [(gs "pod-a", gs "CrashLoopBackOff")] [] 0
      ⟨(gs "pod-a", gs "CrashLoopBackOff"), by simp, by decide⟩).1, ?_⟩
    exact (c3_theorem.1 ⟨[gs "api"], [gs "db"], [(gs "rs1", gs "Deployment"), (gs "rs2", gs "Custom")]⟩
      [(gs "pod-a", gs "CrashLoopBackOff")] [] 0
      ⟨(gs "pod-a", gs "CrashLoopBackOff"), by simp, by decide⟩).2.2.2
      (gs "rs2", gs "Custom") (by simp) (by decide) (by decide)
  · exact c3_theorem.2 ⟨[], [], []⟩ [[(gs "pod-a", gs "Running")], [(gs "pod-a", gs "Running")]]
      (by decide)

/-! ## Claim C4: registry existence check (`checkImage.CheckImages`) -/

/-- `strings.Split` with a one-character separator. -/
def splitOnChar (sep : Char) : GoStr → List GoStr
  | [] => [[]]
  | c :: rest =>
    match splitOnChar sep rest with
    | [] => [[c]]
    | h :: t => if c = sep then [] :: h :: t else (c :: h) :: t

/-- The service-name extraction in `CheckImagesExistInHarbor`: keep the text
after the last `/`, then drop everything from the first `:` on. -/
def extractImageName (img : GoStr) : GoStr :=
  let name := if goContains img (gs "/") then (splitOnChar '/' img).getLast! else img
  if goContains name (gs ":") then (splitOnChar ':' name).headI else name

/-- First-occurrence deduplication of the extracted names
(`uniqueNames` / `imageNames` in `CheckImagesExistInHarbor`). -/
def dedupNamesAux : List GoStr → List GoStr → List GoStr
  | [], _ => []
  | img :: rest, seen =>
    let name := extractImageName img
    if name ∈ seen then dedupNamesAux rest seen
    else name :: dedupNamesAux rest (name :: seen)

/-- The deduplicated service names queried against the registry. -/
def imageNamesOf (images : List GoStr) : List GoStr := dedupNamesAux images []

/-- `checkImage.CheckImages`, with the registry's HTTP layer abstracted as a
total status-code assignment per service name (transport failures out of
scope): an empty image list succeeds without querying; otherwise every
deduplicated name is queried and the step fails naming the services whose
artifact query did not answer 200. -/
def CheckImages (images : List GoStr) (status : GoStr → Nat) :
    Except (List GoStr) Unit :=
  if images = [] then .ok ()
  else
    let names := imageNamesOf images
    let failedImages := names.filter (fun n => !(status n = 200))
    if failedImages = [] then .ok () else .error failedImages

/-- C4: the registry check succeeds iff every deduplicated service name's
artifact query answers 200, and on failure the error names exactly the
missing services. -/
theorem c4_theorem (images : List GoStr) (status : GoStr → Nat) :
    (CheckImages images status = .ok () ↔
      ∀ n ∈ imageNamesOf images, status n = 200) ∧
    (∀ l, CheckImages images status = .error l →
      l ≠ [] ∧ ∀ n, n ∈ l ↔ n ∈ imageNamesOf images ∧ status n ≠ 200) := by
  by_cases hempty : images = []
  · subst hempty
    refine ⟨⟨fun _ n hn => ?_, fun _ => rfl⟩, fun l hl => ?_⟩
    · simp [imageNamesOf, dedupNamesAux] at hn
    · simp [CheckImages] at hl
  · constructor
    · constructor
      · intro h n hn
        by_contra hne
        have hmem : n ∈ (imageNamesOf images).filter (fun n => !(status n = 200)) :=
          List.mem_filter.mpr ⟨hn, by simp [hne]⟩
        rcases hf : (imageNamesOf images).filter (fun n => !(status n = 200)) with _ | ⟨a, t⟩
        · rw [hf] at hmem; simp at hmem
        · simp only [CheckImages, if_neg hempty, hf] at h
          simp at h
      · intro hall
        have hf : (imageNamesOf images).filter (fun n => !(status n = 200)) = [] := by
          rw [List.filter_eq_nil_iff]
          intro n hn
          simp [hall n hn]
        simp [CheckImages, if_neg hempty, hf]
    · intro l hl
      simp only [CheckImages, if_neg hempty] at hl
      by_cases hf : (imageNamesOf images).filter (fun n => !(status n = 200)) = []
      · rw [if_pos hf] at hl; cases hl
      · rw [if_neg hf] at hl
        obtain rfl : (imageNamesOf images).filter (fun n => !(status n = 200)) = l := by
          cases hl; rfl
        refine ⟨hf, fun n => ?_⟩
        rw [List.mem_filter]
        simp

/-- C4 witness: two images of the same service deduplicate to one name; the
check succeeds when the registry answers 200 for it, and with a 404 registry
the error names exactly that service. -/
theorem c4_witness :
    CheckImages [gs "reg/p/svc:1", gs "reg2/p/svc:1"] (fun _ => 200) = .ok () ∧
    (∀ n, n ∈ [gs "svc"] ↔
      n ∈ imageNamesOf [gs "reg/p/svc:1", gs "reg2/p/svc:1"] ∧ (fun _ => 404) n ≠ 200) := by
  constructor
  · exact (c4_theorem [gs "reg/p/svc:1", gs "reg2/p/svc:1"] (fun _ => 200)).1.mpr
      (fun n _ => rfl)
  · exact ((c4_theorem [gs "reg/p/svc:1", gs "reg2/p/svc:1"] (fun _ => 404)).2
      [gs "svc"] (by rfl)).2

/-! ## Claim C5: step-notice `estimated_end` (`common/notification.go`) -/

/-- `math.Round`: rounds half away from zero. -/
def goMathRound (x : ℚ) : ℤ :=
  if 0 ≤ x then ⌊x + 1 / 2⌋ else -⌊-x + 1 / 2⌋

/-- `math.Round(d*100) / 100`: two-decimal rounding of a seconds value. -/
def round2 (d : ℚ) : ℚ := (goMathRound (d * 100) : ℚ) / 100

/-- `time.Duration(lastDuration) * time.Second`: Go's float64 → int64
conversion truncates toward zero, so the added offset is whole seconds. -/
def goSecondsTrunc (q : ℚ) : ℤ := if 0 ≤ q then ⌊q⌋ else ⌈q⌉

/-- `getLastStepDuration`: for a project containing `-web` the historical
lookup is skipped and 0 is returned; otherwise the recorded duration for the
step key, two-decimal rounded, or 0 when absent (a missing ledger, or a
non-float JSON value, both model as `none`). -/
def getLastStepDuration (project : GoStr) (stepDurations : GoStr → Option ℚ)
    (stepName : GoStr) : ℚ :=
  if goContains project (gs "-web") then 0
  else
    match stepDurations stepName with
    | some d => round2 d
    | none => 0

/-- `calculateEstimatedEnd`: now + the last recorded duration, defaulting to
30 seconds when the lookup yields 0; times are modelled in whole seconds. -/
def calculateEstimatedEnd (now : ℤ) (project : GoStr)
    (stepDurations : GoStr → Option ℚ) (currentStepName : GoStr) : ℤ :=
  let lastDuration := getLastStepDuration project stepDurations currentStepName
  let lastDuration := if lastDuration = 0 then 30 else lastDuration
  now + goSecondsTrunc lastDuration

/-- The `estimated_end` field of the step notice built by
`SendStepNotification`: the struct field is always assigned the formatted
`calculateEstimatedEnd` time (a non-empty string), so JSON `omitempty` never
drops it; `none` would model an absent field. -/
def stepNoticeEstimatedEnd (now : ℤ) (project : GoStr)
    (stepDurations : GoStr → Option ℚ) (stepKey : GoStr) : Option ℤ :=
  some (calculateEstimatedEnd now project stepDurations stepKey)

/-- C5 counterexample: for the project `order-web` (name contains `-web`) the
`estimated_end` field is **not** skipped — it is emitted with the default
value now + 30, even when a prior duration is recorded. -/
theorem c5_counterexample :
    goContains (gs "order-web") (gs "-web") = true ∧
    stepNoticeEstimatedEnd 1000 (gs "order-web") (fun _ => some 50)
      (gs "step_9_pullOnline") ≠ none ∧
    stepNoticeEstimatedEnd 1000 (gs "order-web") (fun _ => some 50)
      (gs "step_9_pullOnline") = some 1030 := by
  refine ⟨by decide, ?_, ?_⟩
  · intro h
    simp [stepNoticeEstimatedEnd] at h
  · have hw : goContains (gs "order-web") (gs "-web") = true := by decide
    simp [stepNoticeEstimatedEnd, calculateEstimatedEnd, getLastStepDuration, hw,
      goSecondsTrunc]

/-- C5 (amended): `estimated_end` is always emitted; it equals now plus the
last recorded duration for the step key (two-decimal rounded, truncated to
whole seconds), defaulting to now + 30 when no duration is recorded or the
rounded value is 0; for projects whose name contains `-web` the historical
lookup is skipped, so the value is always now + 30. -/
theorem c5_theorem (now : ℤ) (project : GoStr) (sd : GoStr → Option ℚ)
    (stepKey : GoStr) :
    (goContains project (gs "-web") = true →
      stepNoticeEstimatedEnd now project sd stepKey = some (now + 30)) ∧
    (goContains project (gs "-web") = false → sd stepKey = none →
      stepNoticeEstimatedEnd now project sd stepKey = some (now + 30)) ∧
    (goContains project (gs "-web") = false → ∀ d, sd stepKey = some d →
      round2 d = 0 →
      stepNoticeEstimatedEnd now project sd stepKey = some (now + 30)) ∧
    (goContains project (gs "-web") = false → ∀ d, sd stepKey = some d →
      round2 d ≠ 0 →
      stepNoticeEstimatedEnd now project sd stepKey =
        some (now + goSecondsTrunc (round2 d))) := by
  refine ⟨fun hw => ?_, fun hw hn => ?_, fun hw d hd hz => ?_, fun hw d hd hz => ?_⟩
  · simp [stepNoticeEstimatedEnd, calculateEstimatedEnd, getLastStepDuration, hw,
      goSecondsTrunc]
  · simp [stepNoticeEstimatedEnd, calculateEstimatedEnd, getLastStepDuration, hw, hn,
      goSecondsTrunc]
  · simp [stepNoticeEstimatedEnd, calculateEstimatedEnd, getLastStepDuration, hw, hd, hz,
      goSecondsTrunc]
  · simp [stepNoticeEstimatedEnd, calculateEstimatedEnd, getLastStepDuration, hw, hd, hz]

/-- C5 witness: the amended theorem evaluated for a backend project with a
recorded duration of 62.5 seconds: `estimated_end = now + 62`. -/
theorem c5_witness :
    goContains (gs "order-api") (gs "-web") = false ∧
    (fun k => if k = gs "step_9_pullOnline" then some (125 / 2 : ℚ) else none)
      (gs "step_9_pullOnline") = some (125 / 2 : ℚ) ∧
    round2 (125 / 2 : ℚ) ≠ 0 ∧
    stepNoticeEstimatedEnd 1000 (gs "order-api")
      (fun k => if k = gs "step_9_pullOnline" then some (125 / 2 : ℚ) else none)
      (gs "step_9_pullOnline") = some (1000 + goSecondsTrunc (round2 (125 / 2 : ℚ))) := by
  refine ⟨by decide, by simp, by norm_num [round2, goMathRound], ?_⟩
  exact (c5_theorem 1000 (gs "order-api")
    (fun k => if k = gs "step_9_pullOnline" then some (125 / 2 : ℚ) else none)
    (gs "step_9_pullOnline")).2.2.2 (by decide) (125 / 2 : ℚ) (by simp)
    (by norm_num [round2, goMathRound])

/-! ## Claim C6: readiness probe, Phase B pod health
(`ServiceChecker.checkSinglePodHealth`, primary variant) -/

/-- ASCII whitespace recognised by `strings.TrimSpace` (the Unicode space
classes do not occur in the health responses modelled here). -/
def isGoSpace (c : Char) : Bool :=
  decide (c = ' ' ∨ c = Char.ofNat 9 ∨ c = Char.ofNat 10 ∨ c = Char.ofNat 11 ∨
    c = Char.ofNat 12 ∨ c = Char.ofNat 13)

/-- Leading-whitespace removal. -/
def goTrimLeft (s : GoStr) : GoStr := s.dropWhile isGoSpace

/-- Trailing-whitespace removal. -/
def goTrimRight (s : GoStr) : GoStr := (s.reverse.dropWhile isGoSpace).reverse

/-- `strings.TrimSpace`. -/
def goTrimSpace (s : GoStr) : GoStr := goTrimRight (goTrimLeft s)

/-- The response evaluation of `ServiceChecker.checkSinglePodHealth` (the
variant used by Phase B): trim the captured output; the pod is healthy iff
the trimmed output is non-empty and contains `"status"` (quoted) or `status`.
A failed exec command is unhealthy before this point and is out of scope. -/
def checkSinglePodHealth (output : GoStr) : Bool :=
  let outputStr := goTrimSpace output
  decide (outputStr ≠ []) &&
    (goContains outputStr (gs "\"status\"") || goContains outputStr (gs "status"))

/-- Any string splits as whitespace, its trim, and whitespace. -/
theorem goTrimSpace_decomp (s : GoStr) :
    ∃ pre post, s = pre ++ goTrimSpace s ++ post ∧
      (∀ c ∈ pre, isGoSpace c = true) ∧ (∀ c ∈ post, isGoSpace c = true) := by
  refine ⟨s.takeWhile isGoSpace, ((goTrimLeft s).reverse.takeWhile isGoSpace).reverse,
    ?_, fun c hc => List.mem_takeWhile_imp hc, fun c hc =>
      List.mem_takeWhile_imp (List.mem_reverse.mp hc)⟩
  have h1 : s.takeWhile isGoSpace ++ goTrimLeft s = s :=
    List.takeWhile_append_dropWhile isGoSpace s
  have h2 : goTrimSpace s ++ ((goTrimLeft s).reverse.takeWhile isGoSpace).reverse =
      goTrimLeft s := by
    have h3 : (goTrimLeft s).reverse.takeWhile isGoSpace ++
        (goTrimLeft s).reverse.dropWhile isGoSpace = (goTrimLeft s).reverse :=
      List.takeWhile_append_dropWhile isGoSpace (goTrimLeft s).reverse
    have h4 := congrArg List.reverse h3
    simp only [List.reverse_append, List.reverse_reverse] at h4
    exact h4
  rw [List.append_assoc, h2, h1]

/-- The trimmed string is an infix of the original. -/
theorem goTrimSpace_isInfixOf (s : GoStr) : goTrimSpace s <:+: s := by
  obtain ⟨pre, post, hdec, -, -⟩ := goTrimSpace_decomp s
  exact ⟨pre, post, hdec.symm⟩

/-- A whitespace-free pattern occurring in `s` also occurs in the trimmed
string. -/
theorem infix_goTrimSpace_of_infix {pat : GoStr}
    (hnw : ∀ c ∈ pat, isGoSpace c = false) {s : GoStr} (h : pat <:+: s) :
    pat <:+: goTrimSpace s := by
  obtain ⟨pre, post, hdec, hpre, hpost⟩ := goTrimSpace_decomp s
  rw [hdec] at h
  rcases isInfix_append_cases h with h | h | ⟨s₁, s₂, hs, hne₁, hne₂, hsuf, hp⟩
  · rcases isInfix_append_cases h with h | h | ⟨s₁, s₂, hs, hne₁, hne₂, hsuf, hp⟩
    · rcases pat with _ | ⟨c, pat'⟩
      · exact ⟨[], goTrimSpace s, by simp⟩
      · exact absurd (hpre c (h.subset (List.mem_cons_self c pat')))
          (by simp [hnw c (List.mem_cons_self c pat')])
    · exact h
    · rcases s₁ with _ | ⟨c, s₁'⟩
      · exact absurd rfl hne₁
      · have hc : c ∈ pat := by
          rw [hs]; exact List.mem_append_left _ (List.mem_cons_self c s₁')
        exact absurd (hpre c (hsuf.subset (List.mem_cons_self c s₁')))
          (by simp [hnw c hc])
  · rcases pat with _ | ⟨c, pat'⟩
    · exact ⟨[], goTrimSpace s, by simp⟩
    · exact absurd (hpost c (h.subset (List.mem_cons_self c pat')))
        (by simp [hnw c (List.mem_cons_self c pat')])
  · rcases s₂ with _ | ⟨c, s₂'⟩
    · exact absurd rfl hne₂
    · have hc : c ∈ pat := by
        rw [hs]; exact List.mem_append_right _ (List.mem_cons_self c s₂')
      exact absurd (hpost c (hp.subset (List.mem_cons_self c s₂')))
        (by simp [hnw c hc])

/-- C6: a pod is judged healthy iff the health-endpoint response body is
non-empty and contains the substring `status`; in particular an empty body is
unhealthy. -/
theorem c6_theorem (output : GoStr) :
    checkSinglePodHealth output = true ↔
      (output ≠ [] ∧ gs "status" <:+: output) := by
  have hnw : ∀ c ∈ gs "status", isGoSpace c = false := by decide
  constructor
  · intro h
    simp only [checkSinglePodHealth, Bool.and_eq_true, Bool.or_eq_true,
      decide_eq_true_eq] at h
    obtain ⟨hne, hcontains⟩ := h
    have hst : gs "status" <:+: goTrimSpace output := by
      rcases hcontains with hq | hs
      · rw [goContains_eq_true_iff] at hq
        exact List.IsInfix.trans (by decide) hq
      · rw [goContains_eq_true_iff] at hs
        exact hs
    refine ⟨?_, hst.trans (goTrimSpace_isInfixOf output)⟩
    intro hout
    rw [hout] at hne
    exact hne rfl
  · intro ⟨hne, hst⟩
    have htr : gs "status" <:+: goTrimSpace output := infix_goTrimSpace_of_infix hnw hst
    have htne : goTrimSpace output ≠ [] := by
      intro hz
      rw [hz] at htr
      obtain ⟨t, u, htu⟩ := htr
      have := congrArg List.length htu
      simp at this
      exact absurd this.2.1 (by decide)
    simp only [checkSinglePodHealth, Bool.and_eq_true, Bool.or_eq_true,
      decide_eq_true_eq]
    exact ⟨htne, Or.inr (goContains_eq_true_iff.mpr htr)⟩

-- boundary sanity: an empty body and a whitespace-only body are unhealthy,
-- a `{"status":"DOWN"}` body is healthy
example : checkSinglePodHealth (gs "") = false := by decide

example : checkSinglePodHealth (gs "  ") = false := by decide

example : checkSinglePodHealth (gs "\x7b\"status\":\"DOWN\"\x7d") = true := by decide

/-! ## Claim C7: fan-out concurrency bounds -/

/-- `ImagePuller.calculatePullConcurrency`: the semaphore capacity for
`pullOnline` (at most 20, at least 1, else the image count). -/
def calculatePullConcurrency (imageCount : Nat) : Nat :=
  if imageCount ≤ 20 then (if imageCount < 1 then 1 else imageCount) else 20

/-- `ImagePusher.calculatePushConcurrency`: identical capacity computation for
`pushLocal`. -/
def calculatePushConcurrency (imageCount : Nat) : Nat :=
  if imageCount ≤ 20 then (if imageCount < 1 then 1 else imageCount) else 20

/-- The `maxConcurrency` computation in `CheckImagesExistInHarbor`: 20, or the
deduplicated name count when smaller. -/
def checkImageMaxConcurrency (nameCount : Nat) : Nat :=
  if nameCount < 20 then nameCount else 20

/-- Maximum number of simultaneously running `pullOnline` workers: one
goroutine per image, each doing its work only while holding the semaphore;
an empty list returns an error before any worker is spawned. -/
def pullWorkerBound (images : List GoStr) : Nat :=
  if images = [] then 0
  else min images.length (calculatePullConcurrency images.length)

/-- Maximum number of simultaneously running `pushLocal` workers (same
structure as the puller). -/
def pushWorkerBound (images : List GoStr) : Nat :=
  if images = [] then 0
  else min images.length (calculatePushConcurrency images.length)

/-- Maximum number of simultaneously running `checkImage` workers: one
goroutine per deduplicated service name, gated by the semaphore. -/
def checkImageWorkerBound (images : List GoStr) : Nat :=
  min (imageNamesOf images).length
    (checkImageMaxConcurrency (imageNamesOf images).length)

/-- Maximum number of simultaneously running `tagImage.TagImages` workers:
the function spawns one goroutine per (online, offline) pair and uses **no
semaphore**, so all of them can run at once; an unequal pair count errors out
before spawning. -/
def tagImagesWorkerBound (onlineImages localImages : List GoStr) : Nat :=
  if onlineImages.length ≠ localImages.length then 0
  else onlineImages.length

theorem dedupNamesAux_length_le (images : List GoStr) :
    ∀ seen, (dedupNamesAux images seen).length ≤ images.length := by
  induction images with
  | nil => intro seen; simp [dedupNamesAux]
  | cons img rest ih =>
    intro seen
    rw [dedupNamesAux]
    by_cases h : extractImageName img ∈ seen
    · simp only [if_pos h]
      exact Nat.le_succ_of_le (ih seen)
    · simp only [if_neg h, List.length_cons]
      exact Nat.succ_le_succ (ih _)

/-- C7 counterexample: with 21 image pairs, the `tagImages` fan-out can run
all 21 workers at once, exceeding min(21, 20) = 20. -/
theorem c7_counterexample :
    ¬ (tagImagesWorkerBound (List.replicate 21 (gs "img")) (List.replicate 21 (gs "img")) ≤
      min (List.replicate 21 (gs "img")).length 20) := by
  decide

/-- The pull-concurrency computation equals min(n, 20) for nonempty lists. -/
theorem calculatePullConcurrency_eq_min {n : Nat} (h : 1 ≤ n) :
    calculatePullConcurrency n = min n 20 := by
  unfold calculatePullConcurrency
  rcases le_or_lt n 20 with h20 | h20
  · rw [if_pos h20, if_neg (by omega)]
    omega
  · rw [if_neg (by omega)]
    omega

theorem calculatePushConcurrency_eq_min {n : Nat} (h : 1 ≤ n) :
    calculatePushConcurrency n = min n 20 := by
  unfold calculatePushConcurrency
  rcases le_or_lt n 20 with h20 | h20
  · rw [if_pos h20, if_neg (by omega)]
    omega
  · rw [if_neg (by omega)]
    omega

/-- C7 (amended): the fan-out worker count is bounded by min(itemCount, 20)
for `pullOnline`, `pushLocal` and `checkImage`; `tagImages` spawns one
goroutine per image pair with no semaphore, so its fan-out equals the full
pair count and exceeds 20 whenever more than 20 pairs are tagged. -/
theorem c7_theorem (images onlineImages localImages : List GoStr) :
    pullWorkerBound images ≤ min images.length 20 ∧
    pushWorkerBound images ≤ min images.length 20 ∧
    checkImageWorkerBound images ≤ min images.length 20 ∧
    (onlineImages.length = localImages.length →
      tagImagesWorkerBound onlineImages localImages = onlineImages.length) := by
  have hd : (imageNamesOf images).length ≤ images.length :=
    dedupNamesAux_length_le images []
  refine ⟨?_, ?_, ?_, fun h => ?_⟩
  · by_cases h : images = []
    · simp [pullWorkerBound, h]
    · have hlen : 1 ≤ images.length := by
        cases images with
        | nil => exact absurd rfl h
        | cons a l => simp
      rw [pullWorkerBound, if_neg h, calculatePullConcurrency_eq_min hlen]
      omega
  · by_cases h : images = []
    · simp [pushWorkerBound, h]
    · have hlen : 1 ≤ images.length := by
        cases images with
        | nil => exact absurd rfl h
        | cons a l => simp
      rw [pushWorkerBound, if_neg h, calculatePushConcurrency_eq_min hlen]
      omega
  · rw [checkImageWorkerBound, checkImageMaxConcurrency]
    rcases Nat.lt_or_ge (imageNamesOf images).length 20 with h20 | h20
    · rw [if_pos h20]
      omega
    · rw [if_neg (Nat.not_lt_of_ge h20)]
      omega
  · simp [tagImagesWorkerBound, h]

/-- C7 witness: the amended bound evaluated on a concrete 3-image list and a
21-pair tagging job (whose fan-out is 21). -/
theorem c7_witness :
    pullWorkerBound [gs "a", gs "b", gs "c"] ≤ min 3 20 ∧
    tagImagesWorkerBound (List.replicate 21 (gs "img")) (List.replicate 21 (gs "img")) = 21 := by
  constructor
  · exact (c7_theorem [gs "a", gs "b", gs "c"] [] []).1
  · exact (c7_theorem [] (List.replicate 21 (gs "img"))
      (List.replicate 21 (gs "img"))).2.2.2 (by simp)

/-! ## Claim C8: the AES-GCM/gzip notification envelope -/

/-- The library primitives used by the envelope (gzip, AES-GCM, base64); the
envelope code composes them and is verified against their round-trip
contracts. -/
structure EnvelopePrims where
  gzipCompress : List Nat → List Nat
  gzipDecompress : List Nat → Option (List Nat)
  gcmSeal : List Nat → List Nat → List Nat → List Nat
  gcmOpen : List Nat → List Nat → List Nat → Option (List Nat)
  base64Encode : List Nat → GoStr
  base64Decode : GoStr → Option (List Nat)

/-- `common.CompressAndEncrypt`: gzip the payload, AES-GCM-seal it under the
configured key with a random 12-byte nonce, prepend the nonce, and
base64-encode the result. -/
def CompressAndEncrypt (pr : EnvelopePrims) (key nonce data : List Nat) : GoStr :=
  pr.base64Encode (nonce ++ pr.gcmSeal nonce key (pr.gzipCompress data))

/-- `common.DecryptAndDecompress`: base64-decode, reject inputs shorter than
12 bytes, split off the 12-byte nonce, AES-GCM-open the remainder, and
gunzip. -/
def DecryptAndDecompress (pr : EnvelopePrims) (key : List Nat) (s : GoStr) :
    Option (List Nat) :=
  match pr.base64Decode s with
  | none => none
  | some encryptedData =>
    if encryptedData.length < 12 then none
    else
      let nonce := encryptedData.take 12
      let ciphertext := encryptedData.drop 12
      match pr.gcmOpen nonce key ciphertext with
      | none => none
      | some compressedData => pr.gzipDecompress compressedData

/-- C8: the envelope round-trips: decrypting what encryption produced returns
the original bytes, given the library round-trip contracts (base64, AES-GCM,
gzip) at the values used and a 12-byte nonce. -/
theorem c8_theorem (pr : EnvelopePrims) (key nonce data : List Nat)
    (hnonce : nonce.length = 12)
    (hb64 : pr.base64Decode (pr.base64Encode
      (nonce ++ pr.gcmSeal nonce key (pr.gzipCompress data))) =
      some (nonce ++ pr.gcmSeal nonce key (pr.gzipCompress data)))
    (hgcm : pr.gcmOpen nonce key (pr.gcmSeal nonce key (pr.gzipCompress data)) =
      some (pr.gzipCompress data))
    (hgzip : pr.gzipDecompress (pr.gzipCompress data) = some data) :
    DecryptAndDecompress pr key (CompressAndEncrypt pr key nonce data) = some data := by
  rw [DecryptAndDecompress, CompressAndEncrypt, hb64]
  dsimp only
  have hlen : ¬ (nonce ++ pr.gcmSeal nonce key (pr.gzipCompress data)).length < 12 := by
    rw [List.length_append, hnonce]
    omega
  rw [if_neg hlen]
  have htake : (nonce ++ pr.gcmSeal nonce key (pr.gzipCompress data)).take 12 = nonce := by
    rw [← hnonce, List.take_left]
  have hdrop : (nonce ++ pr.gcmSeal nonce key (pr.gzipCompress data)).drop 12 =
      pr.gcmSeal nonce key (pr.gzipCompress data) := by
    rw [← hnonce, List.drop_left]
  rw [htake, hdrop, hgcm]
  exact hgzip

/-- Trivial primitives satisfying the round-trip contracts pointwise, used to
evaluate the envelope theorem on a concrete payload. -/
def idPrims : EnvelopePrims :=
  { gzipCompress := fun d => d
    gzipDecompress := fun d => some d
    gcmSeal := fun _ _ m => m
    gcmOpen := fun _ _ c => some c
    base64Encode := fun _ => gs "payload"
    base64Decode := fun _ => some (List.replicate 12 0 ++ [1, 2, 3]) }

/-- C8 witness: the round-trip theorem evaluated on the payload `[1, 2, 3]`
with a 12-byte zero nonce. -/
theorem c8_witness :
    DecryptAndDecompress idPrims [9] (CompressAndEncrypt idPrims [9]
      (List.replicate 12 0) [1, 2, 3]) = some [1, 2, 3] :=
  c8_theorem idPrims [9] (List.replicate 12 0) [1, 2, 3] (by decide) rfl rfl rfl

/-! ## Claim C10: empty image lists at the puller and at step 11 -/

/-- `pullOnline.ImagePuller.PullImages`, subprocess outcomes abstracted: the
empty list is rejected with the error 镜像列表为空; otherwise the images are
pulled and the first failure (in list order) is reported. -/
def PullImages (images : List GoStr) (pull : GoStr → Except GoStr Unit) :
    Except GoStr Unit :=
  if images = [] then .error (gs "镜像列表为空")
  else
    images.foldl
      (fun acc img =>
        match acc with
        | .error e => .error e
        | .ok () => pull img)
      (.ok ())

/-- The empty-list guard of `DoubleVersionProcessor.step11PushLocal`: an empty
image list is reported as step success before the pusher is invoked. -/
def step11PushLocal (images : List GoStr)
    (pusher : List GoStr → Except GoStr Unit) : Except GoStr Unit :=
  if images.length = 0 then .ok ()
  else pusher images

/-- C10: the image puller rejects an empty list with the error 镜像列表为空,
while step 11 treats an empty list as success without ever invoking the
pusher (the result is independent of the pusher). -/
theorem c10_theorem :
    (∀ pull, PullImages [] pull = .error (gs "镜像列表为空")) ∧
    (∀ pusher, step11PushLocal [] pusher = .ok ()) ∧
    (∀ pusher₁ pusher₂, step11PushLocal [] pusher₁ = step11PushLocal [] pusher₂) := by
  refine ⟨fun pull => rfl, fun pusher => rfl, fun p₁ p₂ => rfl⟩

/-- C6 witness: the health predicate evaluated on a concrete Spring actuator
response body. -/
theorem c6_witness :
    checkSinglePodHealth (gs "\x7b\"status\":\"UP\"\x7d") = true :=
  (c6_theorem (gs "\x7b\"status\":\"UP\"\x7d")).mpr ⟨by decide, by decide⟩
